import Mathlib

/-!
# Verification of the blueshift-batch-delete batch execution engine

Shallow embedding of the engine found in `batch-processor.js` (and its CLI
twin `batch-delete.js`): the adaptive rate limiter, the retry wrapper
`deleteWithRetry`, the `Logger` failure CSV flush, and `BatchProcessor.start`,
together with proofs settling the specification claims.

Modelling conventions:
* JS numbers that hold delays/multipliers are modelled as `ℚ`.
* The remote call `deleteCustomer` is abstracted by an oracle
  `call : Nat → CallResult` giving, per attempt number, whether the call
  resolves or throws (and with which `status` property, `none` = no status).
* `process.env` is restricted to the two variables the function touches,
  modelled as `Option String` fields (`none` = variable absent).
* Filesystem writes (`Logger.log`, the failure CSV) may throw; the schedule
  `fsOk : Nat → Bool` says whether the k-th write of a run succeeds.  A thrown
  write aborts `start` (there is no try/finally in the source), modelled with
  `Except`, the error carrying the engine state at the point of the throw.
* `sleep` only suspends; retry sleeps are recorded in a `sleeps` trace,
  the rate limiter's `wait()` changes no observable state and is elided.
-/

/-! ## Environment variables (`process.env`) -/

/-- The two `process.env` variables touched by `deleteWithRetry`
(`BLUESHIFT_USER_API_KEY` and `BLUESHIFT_REGION`); `none` = absent. -/
structure Env where
  blueshiftUserApiKey : Option String
  blueshiftRegion : Option String
deriving DecidableEq, Repr

/-- JS truthiness of an env-var read: `undefined` and `""` are falsy. -/
def jsTruthy : Option String → Bool
  | none => false
  | some s => s != ""

/-- The `finally` block of `deleteWithRetry`:
`if (originalKey) process.env.BLUESHIFT_USER_API_KEY = originalKey;
else delete process.env.BLUESHIFT_USER_API_KEY;` -/
def restoreKey (originalKey : Option String) (env : Env) : Env :=
  if jsTruthy originalKey then { env with blueshiftUserApiKey := originalKey }
  else { env with blueshiftUserApiKey := none }

/-! ## Retry policy (`deleteWithRetry`) -/

/-- Result of one invocation of the wrapped remote call `deleteCustomer`:
it either resolves, or throws an error with a message and an optional
`status` property. -/
inductive CallResult where
  | ok : CallResult
  | err (message : String) (status : Option Nat) : CallResult
deriving DecidableEq, Repr

/-- `this.retry` configuration (delays in ms, as JS numbers). -/
structure RetryConfig where
  maxAttempts : Nat
  initialDelayMs : ℚ
  backoffMultiplier : ℚ
deriving DecidableEq, Repr

/-- `const status = error.status || 500;` — JS `||` replaces the falsy
values `undefined` and `0` by `500`. -/
def effectiveStatus : Option Nat → Nat
  | none => 500
  | some status => if status = 0 then 500 else status

/-- Outcome of `deleteWithRetry`: `{success: true}` or
`{success: false, error, status, attempt}`. -/
inductive DeleteResult where
  | success : DeleteResult
  | failure (error : String) (status : Nat) (attempt : Nat) : DeleteResult
deriving DecidableEq, Repr

/-- Observable trace of one `deleteWithRetry` call: its outcome, the
back-off sleeps performed (in order), the number of remote-call attempts
made, and the final `process.env` state. -/
structure RetryRun where
  result : DeleteResult
  sleeps : List ℚ
  attemptsMade : Nat
  env : Env
deriving DecidableEq, Repr

/-- Body of `BatchProcessor.deleteWithRetry`, with the bounded recursion made
structural: `gas` maintains the invariant `gas = maxAttempts - attempt`, so the
source's retry guard `attempt < this.retry.maxAttempts` is exactly `0 < gas`.
Each level saves the original API key, overwrites the two env variables, runs
the call, and applies the `finally` restore on every exit path. -/
def deleteWithRetryGo (apiKey region : String) (retry : RetryConfig)
    (call : Nat → CallResult) : Nat → Nat → Env → RetryRun
  | gas, attempt, env =>
    let originalKey := env.blueshiftUserApiKey
    let env1 : Env := { blueshiftUserApiKey := some apiKey, blueshiftRegion := some region }
    match call attempt with
    | CallResult.ok =>
        { result := DeleteResult.success, sleeps := [], attemptsMade := 1,
          env := restoreKey originalKey env1 }
    | CallResult.err message st =>
        let status := effectiveStatus st
        match gas with
        | 0 =>
            { result := DeleteResult.failure message status attempt, sleeps := [],
              attemptsMade := 1, env := restoreKey originalKey env1 }
        | gas' + 1 =>
            if status = 429 ∨ 500 ≤ status then
              let delayMs := retry.initialDelayMs * retry.backoffMultiplier ^ (attempt - 1)
              let rest := deleteWithRetryGo apiKey region retry call gas' (attempt + 1) env1
              { result := rest.result, sleeps := delayMs :: rest.sleeps,
                attemptsMade := rest.attemptsMade + 1,
                env := restoreKey originalKey rest.env }
            else
              { result := DeleteResult.failure message status attempt, sleeps := [],
                attemptsMade := 1, env := restoreKey originalKey env1 }

/-- `BatchProcessor.deleteWithRetry(identifier, attempt)`; the engine always
starts it at `attempt = 1`. -/
def deleteWithRetry (apiKey region : String) (retry : RetryConfig)
    (call : Nat → CallResult) (attempt : Nat) (env : Env) : RetryRun :=
  deleteWithRetryGo apiKey region retry call (retry.maxAttempts - attempt) attempt env

/-! ## Adaptive rate limiter (`RateLimiter`) -/

/-- `this.rateLimit` configuration (delays in ms). -/
structure RateConfig where
  baseDelayMs : ℚ
  maxDelayMs : ℚ
  backoffMultiplier : ℚ
deriving DecidableEq, Repr

/-- Mutable fields of a `RateLimiter` instance (the config fields are passed
separately, matching `this.baseDelay`/`this.maxDelay`/`this.backoffMultiplier`). -/
structure RateLimiterState where
  currentDelay : ℚ
  consecutiveSuccesses : Nat
deriving DecidableEq, Repr

/-- `RateLimiter` constructor: `currentDelay = baseDelayMs`, counter 0. -/
def RateLimiter.init (c : RateConfig) : RateLimiterState :=
  { currentDelay := c.baseDelayMs, consecutiveSuccesses := 0 }

/-- `RateLimiter.onSuccess()`: increment the counter; at 10 with
`currentDelay > baseDelay`, divide the delay by the multiplier (clamped below
by `baseDelay`) and reset the counter. -/
def RateLimiter.onSuccess (c : RateConfig) (s : RateLimiterState) : RateLimiterState :=
  let n := s.consecutiveSuccesses + 1
  if 10 ≤ n ∧ c.baseDelayMs < s.currentDelay then
    { currentDelay := max c.baseDelayMs (s.currentDelay / c.backoffMultiplier),
      consecutiveSuccesses := 0 }
  else
    { s with consecutiveSuccesses := n }

/-- `RateLimiter.onRateLimit()`: reset the counter, multiply the delay by the
multiplier (clamped above by `maxDelay`); returns `{oldDelay, newDelay}`. -/
def RateLimiter.onRateLimit (c : RateConfig) (s : RateLimiterState) :
    (ℚ × ℚ) × RateLimiterState :=
  let newDelay := min c.maxDelayMs (s.currentDelay * c.backoffMultiplier)
  ((s.currentDelay, newDelay), { currentDelay := newDelay, consecutiveSuccesses := 0 })

/-- One element of a sequence of rate-limiter notifications. -/
inductive RateEvent where
  | success : RateEvent
  | throttled : RateEvent
deriving DecidableEq, Repr

/-- Apply one notification to a `RateLimiter`. -/
def applyRateEvent (c : RateConfig) (s : RateLimiterState) : RateEvent → RateLimiterState
  | RateEvent.success => RateLimiter.onSuccess c s
  | RateEvent.throttled => (RateLimiter.onRateLimit c s).2

/-- State of a freshly-constructed `RateLimiter` after a finite sequence of
`onSuccess`/`onRateLimit` calls. -/
def applyRateEvents (c : RateConfig) (es : List RateEvent) : RateLimiterState :=
  es.foldl (applyRateEvent c) (RateLimiter.init c)

/-! ## Audit logger: failure collection and CSV flush (`Logger`) -/

/-- One element pushed by `Logger.addFailedRecord(identifier, error, status)`. -/
structure FailedRecord where
  identifier : String
  error : String
  status : Nat
deriving DecidableEq, Repr

/-- One CSV row: `` `"${r.identifier}","${r.error}",${r.status}` ``. -/
def quotedRow (r : FailedRecord) : String :=
  "\"" ++ r.identifier ++ "\",\"" ++ r.error ++ "\"," ++ toString r.status

/-- JS `Array.prototype.join('\n')`. -/
def joinNewline : List String → String
  | [] => ""
  | [row] => row
  | row :: rest => row ++ "\n" ++ joinNewline rest

/-- The full CSV text written by `Logger.saveFailedRecords`:
`csvHeader + csvRows` with `` csvHeader = `${columnName},error,status\n` ``. -/
def failedRecordsCsv (columnName : String) (failedRecords : List FailedRecord) : String :=
  (columnName ++ ",error,status\n") ++ joinNewline (failedRecords.map quotedRow)

/-- `Logger.saveFailedRecords(columnName)`: returns `null` (here `none`) and
writes nothing when the failure collection is empty; otherwise writes the CSV
and returns the file path.  The `some` value is (path returned, text written). -/
def Logger.saveFailedRecords (failedRecordsFile columnName : String)
    (failedRecords : List FailedRecord) : Option (String × String) :=
  if failedRecords.length = 0 then none
  else some (failedRecordsFile, failedRecordsCsv columnName failedRecords)

/-! Line structure of the written file, for the row/line-count claims. -/

/-- Split a character sequence at `'\n'` into its lines. -/
def splitLinesCh : List Char → List (List Char)
  | [] => [[]]
  | c :: cs =>
    if c = '\n' then [] :: splitLinesCh cs
    else
      match splitLinesCh cs with
      | [] => [[c]]
      | l :: ls => (c :: l) :: ls

/-- Number of lines of a text (a trailing newline starts a final empty line). -/
def lineCount (s : String) : Nat := (splitLinesCh s.data).length

/-- First line of a text. -/
def firstLine (s : String) : String := String.mk ((splitLinesCh s.data).headD [])

/-! ## Batch engine (`BatchProcessor`) -/

/-- `formatDuration(ms)`. -/
def formatDuration (ms : Nat) : String :=
  let seconds := ms / 1000
  let minutes := seconds / 60
  let hours := minutes / 60
  if 0 < hours then
    toString hours ++ "h " ++ toString (minutes % 60) ++ "m " ++ toString (seconds % 60) ++ "s"
  else if 0 < minutes then
    toString minutes ++ "m " ++ toString (seconds % 60) ++ "s"
  else
    toString seconds ++ "s"

/-- The payload of the terminal `complete` event. -/
structure Summary where
  successCount : Nat
  failureCount : Nat
  totalProcessed : Nat
  duration : String
  durationMs : Nat
  logFile : String
  failedRecordsFile : Option String
  hasFailedRecords : Bool
deriving DecidableEq, Repr

/-- Lifecycle events emitted by the engine (SSE names).  `progress` carries the
raw ratio `current / total * 100`; the source's `toFixed(1)` string rendering
is elided. -/
inductive Event where
  | start (total : Nat)
  | progress (current total : Nat) (percentage : ℚ)
  | success (identifier : String) (current total : Nat)
  | failure (identifier : String) (error : String) (status : Nat) (current total : Nat)
  | rateLimit (oldDelay newDelay : ℚ)
  | cancelled
  | complete (summary : Summary)
deriving DecidableEq, Repr

/-- Memory of a `BatchProcessor` run: the `this.apiKey` field, the modelled
`process.env`, the rate limiter, the two counters of `start()`, the audit-log
lines and failure collection of the `Logger`, the number of filesystem writes
performed so far, and the events emitted so far. -/
structure EngineState where
  apiKey : Option String
  env : Env
  limiter : RateLimiterState
  successCount : Nat
  failureCount : Nat
  auditLog : List String
  failedRecords : List FailedRecord
  writeCount : Nat
  events : List Event
deriving DecidableEq, Repr

/-- `this.emit(e)` — event handlers are external, so emission never throws. -/
def emit (e : Event) (st : EngineState) : EngineState :=
  { st with events := st.events ++ [e] }

/-- `Logger.log(message)`: one durable filesystem append, which throws when
the schedule `fsOk` says the current write fails; a throw propagates the
engine state unchanged. -/
def Logger.log (fsOk : Nat → Bool) (message : String) (st : EngineState) :
    Except EngineState EngineState :=
  if fsOk st.writeCount then
    Except.ok { st with auditLog := st.auditLog ++ [message], writeCount := st.writeCount + 1 }
  else
    Except.error st

/-- `BatchProcessor` constructor arguments (a CSV row is represented by the
value of its selected column, which is all `start()` reads from it:
`record[this.columnName]`). -/
structure BatchConfig where
  records : List String
  identifierType : String
  columnName : String
  deleteAll : Bool
  apiKey : String
  region : String
  rateLimit : RateConfig
  retry : RetryConfig
deriving DecidableEq, Repr

/-- The state carried by an `Except` outcome of an engine step: the state at
the throw for `error`, the state after the step for `ok`. -/
def stOfE : Except EngineState EngineState → EngineState
  | Except.ok st => st
  | Except.error st => st

/-- The `for` loop of `BatchProcessor.start` over `this.records`, from item
index `i` (0-based).  `oracle j attempt` is the behaviour of the remote call
for item `j` at the given attempt; `cancelAt j` is the value of the
`this.cancelled` flag observed by the check at the top of iteration `j`
(cancellation is set externally by `cancel()`; only its first observed-true
check matters, since the loop breaks there).  `rateLimiter.wait()` between
items suspends without changing observable state and is elided. -/
def BatchProcessor.processItems (cfg : BatchConfig) (oracle : Nat → Nat → CallResult)
    (cancelAt : Nat → Bool) (fsOk : Nat → Bool) :
    Nat → List String → EngineState → Except EngineState EngineState
  | _, [], st => Except.ok st
  | i, identifier :: rest, st =>
    if cancelAt i then
      match Logger.log fsOk ("Batch processing cancelled by user") st with
      | Except.error e => Except.error e
      | Except.ok st => Except.ok (emit Event.cancelled st)
    else
      let total := cfg.records.length
      let current := i + 1
      let percentage := (current : ℚ) / (total : ℚ) * 100
      let st := emit (Event.progress current total percentage) st
      let run := deleteWithRetry cfg.apiKey cfg.region cfg.retry (oracle i) 1 st.env
      let st := { st with env := run.env }
      match run.result with
      | DeleteResult.success =>
        let st := { st with successCount := st.successCount + 1 }
        match Logger.log fsOk ("SUCCESS: " ++ identifier) st with
        | Except.error e => Except.error e
        | Except.ok st =>
          let st := emit (Event.success identifier current total) st
          let st := { st with limiter := RateLimiter.onSuccess cfg.rateLimit st.limiter }
          BatchProcessor.processItems cfg oracle cancelAt fsOk (i + 1) rest st
      | DeleteResult.failure error status _attempt =>
        let st := { st with failureCount := st.failureCount + 1 }
        match Logger.log fsOk
            ("FAILED: " ++ identifier ++ " - Status: " ++ toString status ++
              " - Error: " ++ error) st with
        | Except.error e => Except.error e
        | Except.ok st =>
          let st := { st with failedRecords := st.failedRecords ++ [⟨identifier, error, status⟩] }
          let st := emit (Event.failure identifier error status current total) st
          let st :=
            if status = 429 then
              let delays := RateLimiter.onRateLimit cfg.rateLimit st.limiter
              let st := { st with limiter := delays.2 }
              emit (Event.rateLimit delays.1.1 delays.1.2) st
            else st
          BatchProcessor.processItems cfg oracle cancelAt fsOk (i + 1) rest st

/-- `Logger` file paths, derived from the construction-time timestamp. -/
def Logger.logFilePath (timestamp : String) : String :=
  "./logs/batch-log-" ++ timestamp ++ ".txt"

/-- Path of the failure CSV for this run. -/
def Logger.failedRecordsFilePath (timestamp : String) : String :=
  "./logs/failed-records-" ++ timestamp ++ ".csv"

/-- The post-loop flush: `this.logger.saveFailedRecords(this.columnName)`.
A non-empty failure collection performs one (fallible) filesystem write. -/
def flushFailedRecords (fsOk : Nat → Bool) (timestamp columnName : String)
    (st : EngineState) : Except EngineState (Option String × EngineState) :=
  match Logger.saveFailedRecords (Logger.failedRecordsFilePath timestamp) columnName
      st.failedRecords with
  | none => Except.ok (none, st)
  | some (path, _content) =>
    if fsOk st.writeCount then
      Except.ok (some path, { st with writeCount := st.writeCount + 1 })
    else
      Except.error st

/-- `BatchProcessor.start()`.  Parameters beyond the constructor config:
the per-item remote-call oracle, the observed cancellation schedule, the
filesystem-write success schedule, the measured wall-clock duration, the
`Logger` timestamp, and the initial `process.env`.  Returns the final engine
state and the emitted summary, or — when a filesystem write throws — the
state at the point of the throw (note `this.apiKey = null` is the very last
statement and there is no try/finally). -/
def BatchProcessor.start (cfg : BatchConfig) (oracle : Nat → Nat → CallResult)
    (cancelAt : Nat → Bool) (fsOk : Nat → Bool) (durationMs : Nat)
    (timestamp : String) (env0 : Env) : Except EngineState (EngineState × Summary) :=
  let st : EngineState :=
    { apiKey := some cfg.apiKey, env := env0, limiter := RateLimiter.init cfg.rateLimit,
      successCount := 0, failureCount := 0, auditLog := [], failedRecords := [],
      writeCount := 0, events := [] }
  match Logger.log fsOk ("=== Batch Delete Started ===") st with
  | Except.error e => Except.error e
  | Except.ok st =>
  match Logger.log fsOk ("Total Records: " ++ toString cfg.records.length) st with
  | Except.error e => Except.error e
  | Except.ok st =>
  match Logger.log fsOk ("Identifier Type: " ++ cfg.identifierType) st with
  | Except.error e => Except.error e
  | Except.ok st =>
  match Logger.log fsOk ("Column Name: " ++ cfg.columnName) st with
  | Except.error e => Except.error e
  | Except.ok st =>
  let st := emit (Event.start cfg.records.length) st
  match BatchProcessor.processItems cfg oracle cancelAt fsOk 0 cfg.records st with
  | Except.error e => Except.error e
  | Except.ok st =>
  match flushFailedRecords fsOk timestamp cfg.columnName st with
  | Except.error e => Except.error e
  | Except.ok (failedRecordsFile, st) =>
  match Logger.log fsOk ("=== Batch Delete Completed ===") st with
  | Except.error e => Except.error e
  | Except.ok st =>
  match Logger.log fsOk ("Total Processed: " ++ toString cfg.records.length) st with
  | Except.error e => Except.error e
  | Except.ok st =>
  match Logger.log fsOk ("Successful: " ++ toString st.successCount) st with
  | Except.error e => Except.error e
  | Except.ok st =>
  match Logger.log fsOk ("Failed: " ++ toString st.failureCount) st with
  | Except.error e => Except.error e
  | Except.ok st =>
  match Logger.log fsOk ("Duration: " ++ formatDuration durationMs) st with
  | Except.error e => Except.error e
  | Except.ok st =>
  let summary : Summary :=
    { successCount := st.successCount, failureCount := st.failureCount,
      totalProcessed := cfg.records.length, duration := formatDuration durationMs,
      durationMs := durationMs, logFile := Logger.logFilePath timestamp,
      failedRecordsFile := failedRecordsFile,
      hasFailedRecords := decide (0 < st.failedRecords.length) }
  let st := emit (Event.complete summary) st
  Except.ok ({ st with apiKey := none }, summary)

/-- Events emitted by a run (also defined for an aborted run). -/
def eventsOf : Except EngineState (EngineState × Summary) → List Event
  | Except.ok (st, _) => st.events
  | Except.error st => st.events

/-- The `this.apiKey` field after a run ends, normally or by a throw. -/
def apiKeyOf : Except EngineState (EngineState × Summary) → Option String
  | Except.ok (st, _) => st.apiKey
  | Except.error st => st.apiKey

/-- Whether the run aborted with an engine-level exception (Errored). -/
def erroredRun : Except EngineState (EngineState × Summary) → Bool
  | Except.ok _ => false
  | Except.error _ => true

/-- The summary carried by the `complete` event, when the run reached it. -/
def runSummary : Except EngineState (EngineState × Summary) → Option Summary
  | Except.ok (_, summary) => some summary
  | Except.error _ => none


/-! ## Event predicates and concrete runs used by the claim proofs -/

/-- Is this event a `rateLimit` event? -/
def isRateLimit : Event → Bool
  | Event.rateLimit _ _ => true
  | _ => false

/-- Is this event a `failure` event with status 429? -/
def isFailure429 : Event → Bool
  | Event.failure _ _ status _ _ => status == 429
  | _ => false

/-- Adjacent-pair relation: a `rateLimit` event may only directly follow a
`failure` event whose status is 429. -/
def rlR (x y : Event) : Prop := isRateLimit y = true → isFailure429 x = true

/-- Every `rateLimit` event in the list directly follows a status-429
`failure` event (in particular none can be first). -/
def RLinv (l : List Event) : Prop :=
  l.Chain' rlR ∧ ∀ y ∈ l.head?, isRateLimit y = false

/-- Does this event report on an item strictly beyond 1-indexed position `i`? -/
def mentionsItemBeyond (i : Nat) : Event → Bool
  | Event.progress current _ _ => decide (i < current)
  | Event.success _ current _ => decide (i < current)
  | Event.failure _ _ _ current _ => decide (i < current)
  | _ => false

/-- Two-item batch whose remote calls always succeed. -/
def c1Cfg : BatchConfig :=
  { records := ["one@example.com", "two@example.com"], identifierType := "email",
    columnName := "email", deleteAll := false, apiKey := "KEY-1", region := "us",
    rateLimit := ⟨100, 5000, 3/2⟩, retry := ⟨3, 1000, 2⟩ }

/-- Run of `c1Cfg` where `cancel()` lands after item 1 is fully processed:
the `this.cancelled` flag is observed set from the loop check of item 2 on. -/
def c1Run : Except EngineState (EngineState × Summary) :=
  BatchProcessor.start c1Cfg (fun _ _ => CallResult.ok)
    (fun i => decide (1 ≤ i)) (fun _ => true) 1000 "ts" ⟨none, none⟩

/-- Three-item batch whose remote calls always succeed. -/
def c2Cfg : BatchConfig :=
  { records := ["a@x.com", "b@x.com", "c@x.com"], identifierType := "email",
    columnName := "email", deleteAll := false, apiKey := "KEY-2", region := "us",
    rateLimit := ⟨100, 5000, 3/2⟩, retry := ⟨3, 1000, 2⟩ }

/-- Run of `c2Cfg` cancelled after fully processing item 1. -/
def c2Run : Except EngineState (EngineState × Summary) :=
  BatchProcessor.start c2Cfg (fun _ _ => CallResult.ok)
    (fun i => decide (1 ≤ i)) (fun _ => true) 1000 "ts" ⟨none, none⟩

/-- One-item batch with a distinctive API key. -/
def c6Cfg : BatchConfig :=
  { records := ["a@x.com"], identifierType := "email", columnName := "email",
    deleteAll := false, apiKey := "SECRET-KEY", region := "us",
    rateLimit := ⟨100, 5000, 3/2⟩, retry := ⟨3, 1000, 2⟩ }

/-- Run of `c6Cfg` whose very first `Logger.log` filesystem write throws:
the engine-level exception aborts `start` (the Errored terminal state). -/
def c6RunErrored : Except EngineState (EngineState × Summary) :=
  BatchProcessor.start c6Cfg (fun _ _ => CallResult.ok)
    (fun _ => false) (fun _ => false) 0 "ts" ⟨none, none⟩

/-- Run of `c6Cfg` that completes normally. -/
def c6RunCompleted : Except EngineState (EngineState × Summary) :=
  BatchProcessor.start c6Cfg (fun _ _ => CallResult.ok)
    (fun _ => false) (fun _ => true) 0 "ts" ⟨none, none⟩

/-- Run of `c6Cfg` cancelled before its first item. -/
def c6RunCancelled : Except EngineState (EngineState × Summary) :=
  BatchProcessor.start c6Cfg (fun _ _ => CallResult.ok)
    (fun _ => true) (fun _ => true) 0 "ts" ⟨none, none⟩

/-! ## Helper lemmas -/

theorem splitLinesCh_ne_nil (l : List Char) : splitLinesCh l ≠ [] := by
  induction l with
  | nil => simp [splitLinesCh]
  | cons c cs ih =>
    simp only [splitLinesCh]
    split
    · simp
    · cases h : splitLinesCh cs with
      | nil => simp
      | cons x xs => simp

theorem splitLinesCh_length (l : List Char) :
    (splitLinesCh l).length = l.count '\n' + 1 := by
  induction l with
  | nil => simp [splitLinesCh]
  | cons c cs ih =>
    simp only [splitLinesCh]
    split
    · rename_i hc
      subst hc
      simp [List.count_cons, ih]
    · rename_i hc
      cases h : splitLinesCh cs with
      | nil => exact absurd h (splitLinesCh_ne_nil cs)
      | cons x xs =>
        have : (x :: xs).length = cs.count '\n' + 1 := h ▸ ih
        simp only [List.length_cons] at this ⊢
        simp [List.count_cons, Ne.symm hc, this]

theorem splitLinesCh_append_newline (a b : List Char) (ha : a.count '\n' = 0) :
    splitLinesCh (a ++ '\n' :: b) = a :: splitLinesCh b := by
  induction a with
  | nil => simp [splitLinesCh]
  | cons c cs ih =>
    have hc : ¬ c = '\n' := by
      intro hc
      subst hc
      simp [List.count_cons] at ha
    have hcs : cs.count '\n' = 0 := by
      simp [List.count_cons, Ne.symm hc] at ha
      exact ha
    simp only [List.cons_append, splitLinesCh, if_neg hc, List.append_eq, ih hcs]

theorem count_newline_data_append (s t : String) :
    (s ++ t).data.count '\n' = s.data.count '\n' + t.data.count '\n' := by
  show (s.data ++ t.data).count '\n' = _
  simp

theorem digitChar_lt10_ne_newline (m : Nat) (h : m < 10) : Nat.digitChar m ≠ '\n' := by
  interval_cases m <;> decide

/-- Characters produced by `Nat.toDigitsCore` in base 10 are digit characters
or come from the accumulator; in particular no newline ever appears. -/
theorem toDigitsCore_no_newline :
    ∀ fuel n acc, (∀ c ∈ acc, c ≠ '\n') → ∀ c ∈ Nat.toDigitsCore 10 fuel n acc, c ≠ '\n' := by
  intro fuel
  induction fuel with
  | zero => intro n acc hacc c hc; exact hacc c hc
  | succ fuel ih =>
    intro n acc hacc c hc
    simp only [Nat.toDigitsCore] at hc
    split at hc
    · rcases List.mem_cons.mp hc with h | h
      · exact h ▸ digitChar_lt10_ne_newline _ (Nat.mod_lt _ (by norm_num))
      · exact hacc c h
    · refine ih _ _ ?_ c hc
      intro d hd
      rcases List.mem_cons.mp hd with h | h
      · exact h ▸ digitChar_lt10_ne_newline _ (Nat.mod_lt _ (by norm_num))
      · exact hacc d h

theorem toString_nat_no_newline (n : Nat) : (toString n).data.count '\n' = 0 := by
  have h2 : ∀ c ∈ (toString n).data, c ≠ '\n' := by
    intro c hc
    have hd : (toString n).data = Nat.toDigitsCore 10 (n + 1) n [] := rfl
    rw [hd] at hc
    exact toDigitsCore_no_newline (n + 1) n [] (by simp) c hc
  exact List.count_eq_zero.mpr (fun h => h2 '\n' h rfl)

theorem quotedRow_no_newline (r : FailedRecord)
    (hid : r.identifier.data.count '\n' = 0) (herr : r.error.data.count '\n' = 0) :
    (quotedRow r).data.count '\n' = 0 := by
  simp [quotedRow, count_newline_data_append, hid, herr, toString_nat_no_newline]

theorem joinNewline_count (rows : List String)
    (h : ∀ r ∈ rows, r.data.count '\n' = 0) :
    (joinNewline rows).data.count '\n' = rows.length - 1 := by
  induction rows with
  | nil => simp [joinNewline]
  | cons r rest ih =>
    cases rest with
    | nil =>
      simp only [joinNewline]
      simpa using h r (by simp)
    | cons r2 rest2 =>
      have hr : r.data.count '\n' = 0 := h r (by simp)
      have hrest : ∀ x ∈ r2 :: rest2, x.data.count '\n' = 0 := by
        intro x hx; exact h x (by simp [hx])
      simp only [joinNewline, count_newline_data_append, hr, ih hrest]
      have h1 : List.count '\n' ['\n'] = 1 := by decide
      simp only [List.length_cons]
      omega

/-- One-step unfolding of `deleteWithRetryGo` on a constantly-throwing call,
at positive gas. -/
theorem deleteWithRetryGo_succ (apiKey region msg : String) (retry : RetryConfig)
    (os : Option Nat) (g attempt : Nat) (env : Env) :
    deleteWithRetryGo apiKey region retry (fun _ => CallResult.err msg os) (g + 1) attempt env
      = (if effectiveStatus os = 429 ∨ 500 ≤ effectiveStatus os then
          let rest := deleteWithRetryGo apiKey region retry (fun _ => CallResult.err msg os)
            g (attempt + 1) ⟨some apiKey, some region⟩
          { result := rest.result,
            sleeps := (retry.initialDelayMs * retry.backoffMultiplier ^ (attempt - 1)) :: rest.sleeps,
            attemptsMade := rest.attemptsMade + 1,
            env := restoreKey env.blueshiftUserApiKey rest.env }
        else
          { result := DeleteResult.failure msg (effectiveStatus os) attempt, sleeps := [],
            attemptsMade := 1,
            env := restoreKey env.blueshiftUserApiKey ⟨some apiKey, some region⟩ }) := rfl

/-- When every attempt throws with the same retryable status, the retry loop
uses all its gas and fails at attempt `attempt + gas` after `gas + 1` calls. -/
theorem deleteWithRetryGo_const_err (apiKey region : String) (retry : RetryConfig)
    (msg : String) (os : Option Nat)
    (hs : effectiveStatus os = 429 ∨ 500 ≤ effectiveStatus os) :
    ∀ gas attempt env,
      (deleteWithRetryGo apiKey region retry (fun _ => CallResult.err msg os) gas attempt env).result
          = DeleteResult.failure msg (effectiveStatus os) (attempt + gas) ∧
      (deleteWithRetryGo apiKey region retry
          (fun _ => CallResult.err msg os) gas attempt env).attemptsMade = gas + 1 := by
  intro gas
  induction gas with
  | zero => intro attempt env; exact ⟨rfl, rfl⟩
  | succ g ih =>
    intro attempt env
    rw [deleteWithRetryGo_succ, if_pos hs]
    refine ⟨?_, ?_⟩
    · simp only [(ih (attempt + 1) ⟨some apiKey, some region⟩).1]
      have h3 : attempt + 1 + g = attempt + (g + 1) := by omega
      rw [h3]
    · simp only [(ih (attempt + 1) ⟨some apiKey, some region⟩).2]

/-- The j-th recorded back-off sleep (0-based) of a retry run starting at
`attempt` has length `initialDelayMs * backoffMultiplier ^ (attempt - 1 + j)`. -/
theorem deleteWithRetryGo_sleeps_getD (apiKey region : String) (retry : RetryConfig)
    (call : Nat → CallResult) :
    ∀ gas attempt env, 1 ≤ attempt → ∀ j,
      j < (deleteWithRetryGo apiKey region retry call gas attempt env).sleeps.length →
      (deleteWithRetryGo apiKey region retry call gas attempt env).sleeps.getD j 0
        = retry.initialDelayMs * retry.backoffMultiplier ^ (attempt - 1 + j) := by
  intro gas
  induction gas with
  | zero =>
    intro attempt env _ j hj
    exfalso
    revert hj
    rw [deleteWithRetryGo]
    cases hcall : call attempt <;> simp [hcall]
  | succ g ih =>
    intro attempt env hatt j hj
    cases hcall : call attempt with
    | ok =>
      exfalso; revert hj; rw [deleteWithRetryGo]; simp [hcall]
    | err msg os =>
      by_cases hs : effectiveStatus os = 429 ∨ 500 ≤ effectiveStatus os
      · have keq : (deleteWithRetryGo apiKey region retry call (g + 1) attempt env).sleeps
            = (retry.initialDelayMs * retry.backoffMultiplier ^ (attempt - 1)) ::
              (deleteWithRetryGo apiKey region retry call g (attempt + 1)
                ⟨some apiKey, some region⟩).sleeps := by
          conv_lhs => rw [deleteWithRetryGo]
          simp [hcall, if_pos hs]
        rw [keq] at hj ⊢
        cases j with
        | zero => simp
        | succ j2 =>
          simp only [List.getD_cons_succ]
          have hj2 : j2 < (deleteWithRetryGo apiKey region retry call g (attempt + 1)
              ⟨some apiKey, some region⟩).sleeps.length := by
            simpa using hj
          have := ih (attempt + 1) ⟨some apiKey, some region⟩ (by omega) j2 hj2
          rw [this]
          have harith : attempt + 1 - 1 + j2 = attempt - 1 + (j2 + 1) := by omega
          rw [harith]
      · exfalso; revert hj; rw [deleteWithRetryGo]; simp [hcall, if_neg hs]

/-- Closed form of the `finally` restore: the key becomes the original when it
was truthy and is removed otherwise; the region is untouched. -/
theorem restoreKey_eq (o : Option String) (e : Env) :
    restoreKey o e = ⟨if jsTruthy o then o else none, e.blueshiftRegion⟩ := by
  unfold restoreKey
  split <;> simp_all

/-- Final `process.env` of any retry run: the key is restored from the
outermost saved original, the region stays overwritten. -/
theorem deleteWithRetryGo_env (apiKey region : String) (retry : RetryConfig)
    (call : Nat → CallResult) :
    ∀ gas attempt env,
      (deleteWithRetryGo apiKey region retry call gas attempt env).env
        = restoreKey env.blueshiftUserApiKey ⟨some apiKey, some region⟩ := by
  intro gas
  induction gas with
  | zero =>
    intro attempt env
    rw [deleteWithRetryGo]
    cases hcall : call attempt <;> simp [hcall]
  | succ g ih =>
    intro attempt env
    rw [deleteWithRetryGo]
    cases hcall : call attempt with
    | ok => simp [hcall]
    | err msg os =>
      by_cases hs : effectiveStatus os = 429 ∨ 500 ≤ effectiveStatus os
      · simp only [hcall, if_pos hs]
        rw [ih (attempt + 1) ⟨some apiKey, some region⟩]
        rw [restoreKey_eq, restoreKey_eq, restoreKey_eq]
      · simp [hcall, if_neg hs]

/-- One `onSuccess`/`onRateLimit` call keeps the current delay within
`[baseDelayMs, maxDelayMs]`, provided the multiplier is at least 1. -/
theorem applyRateEvent_bounds (c : RateConfig) (h0 : 0 ≤ c.baseDelayMs)
    (h1 : c.baseDelayMs ≤ c.maxDelayMs) (hm : 1 ≤ c.backoffMultiplier)
    (s : RateLimiterState) (hs : c.baseDelayMs ≤ s.currentDelay ∧ s.currentDelay ≤ c.maxDelayMs)
    (e : RateEvent) :
    c.baseDelayMs ≤ (applyRateEvent c s e).currentDelay ∧
      (applyRateEvent c s e).currentDelay ≤ c.maxDelayMs := by
  have hd : (0:ℚ) ≤ s.currentDelay := le_trans h0 hs.1
  cases e with
  | success =>
    simp only [applyRateEvent, RateLimiter.onSuccess]
    split
    · constructor
      · exact le_max_left _ _
      · exact max_le h1 (le_trans (div_le_self hd hm) hs.2)
    · exact hs
  | throttled =>
    simp only [applyRateEvent, RateLimiter.onRateLimit]
    constructor
    · exact le_min h1 (le_trans hs.1 (le_mul_of_one_le_right hd hm))
    · exact min_le_left _ _

/-- The delay bound is preserved by any sequence of notifications. -/
theorem foldl_rate_bounds (c : RateConfig) (h0 : 0 ≤ c.baseDelayMs)
    (h1 : c.baseDelayMs ≤ c.maxDelayMs) (hm : 1 ≤ c.backoffMultiplier) :
    ∀ (es : List RateEvent) (s : RateLimiterState),
      c.baseDelayMs ≤ s.currentDelay ∧ s.currentDelay ≤ c.maxDelayMs →
      c.baseDelayMs ≤ (es.foldl (applyRateEvent c) s).currentDelay ∧
        (es.foldl (applyRateEvent c) s).currentDelay ≤ c.maxDelayMs := by
  intro es
  induction es with
  | nil => intro s hs; exact hs
  | cons e rest ih =>
    intro s hs
    exact ih _ (applyRateEvent_bounds c h0 h1 hm s hs e)

/-- The empty event list satisfies the rate-limit placement invariant. -/
theorem RLinv_nil : RLinv [] := ⟨List.chain'_nil, by simp⟩

/-- Appending an event preserves the invariant if the event is not a
`rateLimit`, or the list currently ends with a status-429 `failure`. -/
theorem RLinv_append (l : List Event) (e : Event) (h : RLinv l)
    (he : isRateLimit e = false ∨ ∃ f, l.getLast? = some f ∧ isFailure429 f = true) :
    RLinv (l ++ [e]) := by
  constructor
  · rw [List.chain'_append]
    refine ⟨h.1, List.chain'_singleton e, ?_⟩
    intro x hx y hy
    simp only [List.head?_cons, Option.mem_def, Option.some.injEq] at hy
    subst hy
    intro hrl
    rcases he with he | ⟨f, hf, h429⟩
    · rw [he] at hrl; cases hrl
    · rw [hf] at hx
      simp only [Option.mem_def, Option.some.injEq] at hx
      subst hx
      exact h429
  · intro y hy
    cases l with
    | nil =>
      simp only [List.nil_append, List.head?_cons, Option.mem_def, Option.some.injEq] at hy
      subst hy
      rcases he with he | ⟨f, hf, _⟩
      · exact he
      · simp at hf
    | cons a t =>
      simp only [List.cons_append, List.head?_cons, Option.mem_def, Option.some.injEq] at hy
      subst hy
      exact h.2 a (by simp)

/-- Emission appends one event. -/
theorem emit_events (e : Event) (st : EngineState) :
    (emit e st).events = st.events ++ [e] := rfl

/-- A throwing `Logger.log` propagates the engine state unchanged. -/
theorem log_error_state (fsOk : Nat → Bool) (m : String) (st e : EngineState)
    (h : Logger.log fsOk m st = Except.error e) : e = st := by
  unfold Logger.log at h
  split at h
  · cases h
  · injection h with h
    exact h.symm

/-- A successful `Logger.log` leaves the emitted events unchanged. -/
theorem log_ok_events (fsOk : Nat → Bool) (m : String) (st st2 : EngineState)
    (h : Logger.log fsOk m st = Except.ok st2) : st2.events = st.events := by
  unfold Logger.log at h
  split at h
  · injection h with h
    rw [← h]
  · cases h

/-- The item loop preserves the rate-limit placement invariant: within one
iteration, a `rateLimit` event is emitted only directly after the status-429
`failure` event of the same item. -/
theorem processItems_RLinv (cfg : BatchConfig) (oracle : Nat → Nat → CallResult)
    (cancelAt : Nat → Bool) (fsOk : Nat → Bool) :
    ∀ (remaining : List String) (i : Nat) (st : EngineState), RLinv st.events →
      RLinv (stOfE (BatchProcessor.processItems cfg oracle cancelAt fsOk i remaining st)).events := by
  intro remaining
  induction remaining with
  | nil => intro i st hinv; exact hinv
  | cons identifier rest ih =>
    intro i st hinv
    simp only [BatchProcessor.processItems]
    split
    · -- `this.cancelled` observed: log, emit `cancelled`, stop
      split
      · rename_i e heq
        show RLinv e.events
        rw [log_error_state _ _ _ _ heq]
        exact hinv
      · rename_i st2 heq
        show RLinv (emit Event.cancelled st2).events
        rw [emit_events, log_ok_events _ _ _ _ heq]
        exact RLinv_append _ _ hinv (Or.inl rfl)
    · -- process the item
      have hprog : RLinv (st.events ++ [Event.progress (i + 1) cfg.records.length
          (((i + 1 : Nat) : ℚ) / (cfg.records.length : ℚ) * 100)]) :=
        RLinv_append _ _ hinv (Or.inl rfl)
      split
      · -- remote outcome Success
        split
        · rename_i e heq
          show RLinv e.events
          rw [log_error_state _ _ _ _ heq]
          exact hprog
        · rename_i st2 heq
          apply ih
          rw [emit_events, log_ok_events _ _ _ _ heq]
          show RLinv ((st.events ++ [Event.progress _ _ _]) ++ [Event.success identifier _ _])
          exact RLinv_append _ _ hprog (Or.inl rfl)
      · -- remote outcome Failure
        rename_i error status attempt heqr
        split
        · rename_i e heq
          show RLinv e.events
          rw [log_error_state _ _ _ _ heq]
          exact hprog
        · rename_i st2 heq
          have hev2 : st2.events = st.events ++ [Event.progress (i + 1) cfg.records.length
              (((i + 1 : Nat) : ℚ) / (cfg.records.length : ℚ) * 100)] :=
            log_ok_events _ _ _ _ heq
          have hfail : RLinv ((st.events ++ [Event.progress (i + 1) cfg.records.length
              (((i + 1 : Nat) : ℚ) / (cfg.records.length : ℚ) * 100)]) ++
              [Event.failure identifier error status (i + 1) cfg.records.length]) :=
            RLinv_append _ _ hprog (Or.inl rfl)
          split
          · -- status = 429: emit `rateLimit` right after the failure event
            rename_i h429
            apply ih
            rw [emit_events, emit_events, hev2]
            refine RLinv_append _ _ hfail (Or.inr ?_)
            refine ⟨Event.failure identifier error status (i + 1) cfg.records.length,
              List.getLast?_concat _, ?_⟩
            simp [isFailure429, h429]
          · apply ih
            rw [emit_events, hev2]
            exact hfail

/-- A throwing failure-CSV write propagates the engine state unchanged. -/
theorem flush_error_state (fsOk : Nat → Bool) (ts col : String) (st e : EngineState)
    (h : flushFailedRecords fsOk ts col st = Except.error e) : e = st := by
  unfold flushFailedRecords at h
  split at h
  · cases h
  · split at h
    · cases h
    · injection h with h
      exact h.symm

/-- A successful failure-CSV flush leaves the emitted events unchanged. -/
theorem flush_ok_events (fsOk : Nat → Bool) (ts col : String) (st st2 : EngineState)
    (p : Option String) (h : flushFailedRecords fsOk ts col st = Except.ok (p, st2)) :
    st2.events = st.events := by
  unfold flushFailedRecords at h
  split at h
  · injection h with h
    injection h with hp hst
    rw [← hst]
  · split at h
    · injection h with h
      injection h with hp hst
      rw [← hst]
    · cases h
/-! ## Claims -/

/-- C1 (code bug): the spec demands that cancelling after fully processing item
`i` yields a summary with `totalProcessed == i`.  The code instead always
reports `totalProcessed = this.records.length`: in the concrete run `c1Run`
(two items, remote calls succeed, cancellation observed from the check before
item 2), exactly one item was processed (`successCount + failureCount = 1`)
and no `progress`/`success`/`failure` event mentions any item beyond 1, yet
the `complete` summary reports `totalProcessed = 2`, not 1. -/
theorem c1_cancelled_run_reports_full_total :
    (runSummary c1Run).map Summary.totalProcessed = some 2 ∧
    (runSummary c1Run).map (fun s => s.successCount + s.failureCount) = some 1 ∧
    (eventsOf c1Run).countP (mentionsItemBeyond 1) = 0 ∧
    Event.cancelled ∈ eventsOf c1Run := by
  refine ⟨rfl, by decide, by decide, by decide⟩

/-- C2 (code bug): the spec demands `successCount + failureCount ==
totalProcessed` at `complete`, with `totalProcessed` below the item count
exactly when cancelled.  In the concrete cancelled run `c2Run` (three items,
cancellation observed from the check before item 2) the summary has
`successCount + failureCount = 1` but `totalProcessed = 3`, and
`totalProcessed` equals the full item count despite the cancellation. -/
theorem c2_complete_counts_mismatch_when_cancelled :
    (runSummary c2Run).map (fun s => s.successCount + s.failureCount) = some 1 ∧
    (runSummary c2Run).map Summary.totalProcessed = some 3 ∧
    c2Cfg.records.length = 3 ∧
    Event.cancelled ∈ eventsOf c2Run := by
  refine ⟨by decide, rfl, rfl, by decide⟩

/-- C3 counterexample: the claim asserts the delay invariant for every rate
configuration with non-negative components and `baseDelay ≤ maxDelay`.  The
configuration `⟨100, 5000, 1/2⟩` satisfies all of that, yet a single
`onRateLimit` call drops the current delay to `50 < baseDelayMs`: the source
multiplies by the multiplier without guarding against multipliers below 1. -/
theorem c3_counterexample :
    (0:ℚ) ≤ (100:ℚ) ∧ (0:ℚ) ≤ (5000:ℚ) ∧ (0:ℚ) ≤ (1/2 : ℚ) ∧ (100:ℚ) ≤ (5000:ℚ) ∧
    ¬ ((100:ℚ) ≤ (applyRateEvents ⟨100, 5000, 1/2⟩ [RateEvent.throttled]).currentDelay) := by
  refine ⟨by norm_num, by norm_num, by norm_num, by norm_num, ?_⟩
  simp only [applyRateEvents, List.foldl, applyRateEvent, RateLimiter.onRateLimit, RateLimiter.init]
  norm_num

/-- C3 (amended): for every rate configuration with non-negative components,
`baseDelay ≤ maxDelay` and additionally `backoffMultiplier ≥ 1`, the
current delay of a freshly-constructed `RateLimiter` stays within
`[baseDelayMs, maxDelayMs]` after any finite sequence of
`onSuccess`/`onRateLimit` calls. -/
theorem c3_rate_delay_bounds (c : RateConfig) (h0 : 0 ≤ c.baseDelayMs)
    (h1 : c.baseDelayMs ≤ c.maxDelayMs) (hm : 1 ≤ c.backoffMultiplier)
    (es : List RateEvent) :
    c.baseDelayMs ≤ (applyRateEvents c es).currentDelay ∧
      (applyRateEvents c es).currentDelay ≤ c.maxDelayMs :=
  foldl_rate_bounds c h0 h1 hm es (RateLimiter.init c) ⟨le_refl _, h1⟩

/-- C3 witness: the amended bound instantiated at the configuration
`⟨100, 5000, 3/2⟩` and the call sequence `onRateLimit; onSuccess`. -/
theorem c3_witness :
    (0:ℚ) ≤ ((⟨100, 5000, 3/2⟩ : RateConfig)).baseDelayMs ∧
    (100:ℚ) ≤ (applyRateEvents ⟨100, 5000, 3/2⟩ [RateEvent.throttled, RateEvent.success]).currentDelay ∧
    (applyRateEvents ⟨100, 5000, 3/2⟩ [RateEvent.throttled, RateEvent.success]).currentDelay ≤ 5000 :=
  ⟨by norm_num, (c3_rate_delay_bounds ⟨100, 5000, 3/2⟩ (by norm_num) (by norm_num) (by norm_num)
    [RateEvent.throttled, RateEvent.success]).1,
   (c3_rate_delay_bounds ⟨100, 5000, 3/2⟩ (by norm_num) (by norm_num) (by norm_num)
    [RateEvent.throttled, RateEvent.success]).2⟩

/-- C4: for every `RetryConfig` with `maxAttempts ≥ 1`, an item whose remote
call throws with status 500 on every attempt causes exactly `maxAttempts`
remote-call attempts and a Failure outcome whose attempt count is
`maxAttempts`; an item whose remote call throws with status 404 on its first
attempt causes exactly one attempt and an immediate Failure outcome. -/
theorem c4_retry_attempt_counts (retry : RetryConfig) (h : 1 ≤ retry.maxAttempts)
    (apiKey region msg : String) (env : Env) :
    ((deleteWithRetry apiKey region retry (fun _ => CallResult.err msg (some 500)) 1 env).attemptsMade
        = retry.maxAttempts ∧
     (deleteWithRetry apiKey region retry (fun _ => CallResult.err msg (some 500)) 1 env).result
        = DeleteResult.failure msg 500 retry.maxAttempts) ∧
    (∀ call : Nat → CallResult, call 1 = CallResult.err msg (some 404) →
      (deleteWithRetry apiKey region retry call 1 env).attemptsMade = 1 ∧
      (deleteWithRetry apiKey region retry call 1 env).result
        = DeleteResult.failure msg 404 1) := by
  have h500 : effectiveStatus (some 500) = 429 ∨ 500 ≤ effectiveStatus (some 500) := by
    right; simp [effectiveStatus]
  have hkey := deleteWithRetryGo_const_err apiKey region retry msg (some 500) h500
    (retry.maxAttempts - 1) 1 env
  refine ⟨⟨?_, ?_⟩, ?_⟩
  · rw [deleteWithRetry, hkey.2]; omega
  · rw [deleteWithRetry, hkey.1]
    have h5 : effectiveStatus (some 500) = 500 := by simp [effectiveStatus]
    have h6 : 1 + (retry.maxAttempts - 1) = retry.maxAttempts := by omega
    rw [h5, h6]
  · intro call hcall
    rw [deleteWithRetry]
    cases hg : retry.maxAttempts - 1 with
    | zero =>
      constructor
      · show (deleteWithRetryGo apiKey region retry call 0 1 env).attemptsMade = 1
        simp [deleteWithRetryGo, hcall, effectiveStatus]
      · show (deleteWithRetryGo apiKey region retry call 0 1 env).result = _
        simp [deleteWithRetryGo, hcall, effectiveStatus]
    | succ g =>
      constructor
      · show (deleteWithRetryGo apiKey region retry call (g + 1) 1 env).attemptsMade = 1
        simp [deleteWithRetryGo, hcall, effectiveStatus]
      · show (deleteWithRetryGo apiKey region retry call (g + 1) 1 env).result = _
        simp [deleteWithRetryGo, hcall, effectiveStatus]

/-- C4 witness: the attempt counts instantiated at `maxAttempts = 3`. -/
theorem c4_witness :
    1 ≤ (⟨3, 1000, 2⟩ : RetryConfig).maxAttempts ∧
    (deleteWithRetry "K" "us" ⟨3, 1000, 2⟩ (fun _ => CallResult.err "boom" (some 500)) 1
        ⟨none, none⟩).attemptsMade = 3 ∧
    (deleteWithRetry "K" "us" ⟨3, 1000, 2⟩ (fun _ => CallResult.err "boom" (some 500)) 1
        ⟨none, none⟩).result = DeleteResult.failure "boom" 500 3 ∧
    (deleteWithRetry "K" "us" ⟨3, 1000, 2⟩ (fun _ => CallResult.err "boom" (some 404)) 1
        ⟨none, none⟩).attemptsMade = 1 ∧
    (deleteWithRetry "K" "us" ⟨3, 1000, 2⟩ (fun _ => CallResult.err "boom" (some 404)) 1
        ⟨none, none⟩).result = DeleteResult.failure "boom" 404 1 := by
  have h := c4_retry_attempt_counts ⟨3, 1000, 2⟩ (by decide) "K" "us" "boom" ⟨none, none⟩
  have h404 := h.2 (fun _ => CallResult.err "boom" (some 404)) rfl
  exact ⟨by decide, h.1.1, h.1.2, h404.1, h404.2⟩

/-- C5: in every run of the engine (any configuration, remote behaviour,
cancellation schedule and filesystem behaviour), every `rateLimit` event in
the emitted stream directly follows a `failure` event with status 429 — the
event for an item whose final outcome, after all retries, is a 429 failure.
A 429 that is resolved by a later successful retry of the same item yields a
`success` event and never a `rateLimit` event. -/
theorem c5_rateLimit_only_after_final_429 (cfg : BatchConfig)
    (oracle : Nat → Nat → CallResult) (cancelAt : Nat → Bool) (fsOk : Nat → Bool)
    (durationMs : Nat) (timestamp : String) (env0 : Env) :
    RLinv (eventsOf (BatchProcessor.start cfg oracle cancelAt fsOk durationMs timestamp env0)) := by
  unfold BatchProcessor.start
  dsimp only
  split
  · rename_i e heq
    show RLinv e.events
    rw [log_error_state _ _ _ _ heq]
    exact RLinv_nil
  · rename_i st1 h1
    have hev1 : st1.events = [] := log_ok_events _ _ _ _ h1
    split
    · rename_i e heq
      show RLinv e.events
      rw [log_error_state _ _ _ _ heq, hev1]
      exact RLinv_nil
    · rename_i st2 h2
      have hev2 : st2.events = [] := (log_ok_events _ _ _ _ h2).trans hev1
      split
      · rename_i e heq
        show RLinv e.events
        rw [log_error_state _ _ _ _ heq, hev2]
        exact RLinv_nil
      · rename_i st3 h3
        have hev3 : st3.events = [] := (log_ok_events _ _ _ _ h3).trans hev2
        split
        · rename_i e heq
          show RLinv e.events
          rw [log_error_state _ _ _ _ heq, hev3]
          exact RLinv_nil
        · rename_i st4 h4
          have hev4 : st4.events = [] := (log_ok_events _ _ _ _ h4).trans hev3
          have hstart : RLinv (emit (Event.start cfg.records.length) st4).events := by
            rw [emit_events, hev4]
            exact RLinv_append _ _ RLinv_nil (Or.inl rfl)
          have hloop := processItems_RLinv cfg oracle cancelAt fsOk cfg.records 0
            (emit (Event.start cfg.records.length) st4) hstart
          split
          · rename_i e heq
            show RLinv e.events
            rw [heq] at hloop
            exact hloop
          · rename_i st5 h5
            rw [h5] at hloop
            have hev5 : RLinv st5.events := hloop
            split
            · rename_i e heq
              show RLinv e.events
              rw [flush_error_state _ _ _ _ _ heq]
              exact hev5
            · rename_i failedRecordsFile st6 h6
              have hev6 : RLinv st6.events := by
                rw [flush_ok_events _ _ _ _ _ _ h6]
                exact hev5
              split
              · rename_i e heq
                show RLinv e.events
                rw [log_error_state _ _ _ _ heq]
                exact hev6
              · rename_i st7 h7
                have hev7 : RLinv st7.events := by
                  rw [log_ok_events _ _ _ _ h7]
                  exact hev6
                split
                · rename_i e heq
                  show RLinv e.events
                  rw [log_error_state _ _ _ _ heq]
                  exact hev7
                · rename_i st8 h8
                  have hev8 : RLinv st8.events := by
                    rw [log_ok_events _ _ _ _ h8]
                    exact hev7
                  split
                  · rename_i e heq
                    show RLinv e.events
                    rw [log_error_state _ _ _ _ heq]
                    exact hev8
                  · rename_i st9 h9
                    have hev9 : RLinv st9.events := by
                      rw [log_ok_events _ _ _ _ h9]
                      exact hev8
                    split
                    · rename_i e heq
                      show RLinv e.events
                      rw [log_error_state _ _ _ _ heq]
                      exact hev9
                    · rename_i st10 h10
                      have hev10 : RLinv st10.events := by
                        rw [log_ok_events _ _ _ _ h10]
                        exact hev9
                      split
                      · rename_i e heq
                        show RLinv e.events
                        rw [log_error_state _ _ _ _ heq]
                        exact hev10
                      · rename_i st11 h11
                        have hev11 : RLinv st11.events := by
                          rw [log_ok_events _ _ _ _ h11]
                          exact hev10
                        show RLinv (emit (Event.complete _) st11).events
                        rw [emit_events]
                        exact RLinv_append _ _ hev11 (Or.inl rfl)

/-- C6 (code bug): the spec demands the stored credential be discarded at every
terminal state.  The code sets `this.apiKey = null` only as the last
statement of `start()`, with no try/finally: in `c6RunErrored`, where the
first audit-log write throws (the Errored state of the spec), the engine
still holds `some "SECRET-KEY"`.  The Completed and Cancelled runs do
discard it. -/
theorem c6_apiKey_retained_on_errored_run :
    erroredRun c6RunErrored = true ∧
    apiKeyOf c6RunErrored = some "SECRET-KEY" ∧
    erroredRun c6RunCompleted = false ∧
    apiKeyOf c6RunCompleted = none ∧
    Event.cancelled ∈ eventsOf c6RunCancelled ∧
    apiKeyOf c6RunCancelled = none := by
  refine ⟨rfl, rfl, rfl, rfl, by decide, rfl⟩

/-- C7: for every retried item, the sleep inserted after a retryable failure of
attempt `k` (1-indexed, counted here as the k-th recorded sleep of the run,
which exists only when `k < maxAttempts`) and before attempt `k + 1` equals
exactly `initialDelayMs * backoffMultiplier ^ (k - 1)`. -/
theorem c7_retry_delay_formula (retry : RetryConfig) (apiKey region : String)
    (call : Nat → CallResult) (env : Env) (k : Nat) (h1 : 1 ≤ k)
    (h2 : k ≤ (deleteWithRetry apiKey region retry call 1 env).sleeps.length) :
    (deleteWithRetry apiKey region retry call 1 env).sleeps.getD (k - 1) 0
      = retry.initialDelayMs * retry.backoffMultiplier ^ (k - 1) := by
  have := deleteWithRetryGo_sleeps_getD apiKey region retry call
    (retry.maxAttempts - 1) 1 env (by omega) (k - 1) (by
      rw [deleteWithRetry] at h2; omega)
  rw [deleteWithRetry]
  simpa using this

/-- C7 witness: the second retry sleep of a run with `initialDelayMs = 1000`,
`backoffMultiplier = 2` equals `1000 * 2 ^ 1`. -/
theorem c7_witness :
    1 ≤ 2 ∧
    2 ≤ (deleteWithRetry "K" "us" ⟨3, 1000, 2⟩ (fun _ => CallResult.err "boom" (some 500)) 1
        ⟨none, none⟩).sleeps.length ∧
    (deleteWithRetry "K" "us" ⟨3, 1000, 2⟩ (fun _ => CallResult.err "boom" (some 500)) 1
        ⟨none, none⟩).sleeps.getD (2 - 1) 0 = (1000 : ℚ) * 2 ^ (2 - 1) := by
  refine ⟨by decide, by decide, ?_⟩
  exact c7_retry_delay_formula ⟨3, 1000, 2⟩ "K" "us"
    (fun _ => CallResult.err "boom" (some 500)) ⟨none, none⟩ 2 (by decide) (by decide)

/-- C8 counterexample: the claim asserts, for every invocation with `n ≥ 1`
recorded failures, a written CSV of exactly `n + 1` lines.  The source quotes
fields without escaping: a recorded failure whose error text contains a
newline (reachable, since arbitrary error messages and CSV-sourced
identifiers are recorded verbatim) yields 3 lines for a single failure. -/
theorem c8_newline_counterexample :
    (Logger.saveFailedRecords "f.csv" "email" [⟨"a", "x\ny", 500⟩]).map
        (fun p => lineCount p.2)
      ≠ some ([(⟨"a", "x\ny", 500⟩ : FailedRecord)].length + 1) := by decide

/-- C8 (amended): for every invocation of `Logger.saveFailedRecords` whose
recorded fields and column name contain no newline characters: with an empty
failure collection no file is written and no path is returned; with `n ≥ 1`
failures exactly one CSV is written whose first line is the header
`<columnName>,error,status`, followed by one quoted row per failure —
`n + 1` lines in total — and the file path is returned. -/
theorem c8_flushFailures (failedRecordsFile columnName : String)
    (failedRecords : List FailedRecord)
    (hcol : columnName.data.count '\n' = 0)
    (hfields : ∀ r ∈ failedRecords,
      r.identifier.data.count '\n' = 0 ∧ r.error.data.count '\n' = 0) :
    (failedRecords.length = 0 →
      Logger.saveFailedRecords failedRecordsFile columnName failedRecords = none) ∧
    (0 < failedRecords.length →
      Logger.saveFailedRecords failedRecordsFile columnName failedRecords
        = some (failedRecordsFile, failedRecordsCsv columnName failedRecords) ∧
      lineCount (failedRecordsCsv columnName failedRecords) = failedRecords.length + 1 ∧
      firstLine (failedRecordsCsv columnName failedRecords) = columnName ++ ",error,status") := by
  have hrows : ∀ row ∈ failedRecords.map quotedRow, row.data.count '\n' = 0 := by
    intro row hrow
    rcases List.mem_map.mp hrow with ⟨r, hr, hrq⟩
    exact hrq ▸ quotedRow_no_newline r (hfields r hr).1 (hfields r hr).2
  constructor
  · intro hlen
    simp [Logger.saveFailedRecords, hlen]
  · intro hlen
    have hlen' : ¬ failedRecords.length = 0 := by omega
    refine ⟨by simp [Logger.saveFailedRecords, hlen'], ?_, ?_⟩
    · unfold lineCount
      rw [splitLinesCh_length]
      unfold failedRecordsCsv
      rw [count_newline_data_append, count_newline_data_append]
      rw [joinNewline_count _ hrows]
      have hlit : (",error,status\n" : String).data.count '\n' = 1 := by decide
      simp only [hcol, hlit, List.length_map]
      omega
    · unfold firstLine failedRecordsCsv
      have hdata : ((columnName ++ ",error,status\n") ++
            joinNewline (failedRecords.map quotedRow)).data
          = (columnName.data ++ (",error,status" : String).data) ++
            '\n' :: (joinNewline (failedRecords.map quotedRow)).data := by
        show (columnName.data ++ (",error,status\n" : String).data) ++ _ = _
        have : (",error,status\n" : String).data = (",error,status" : String).data ++ ['\n'] := by
          decide
        rw [this]
        simp
      rw [hdata, splitLinesCh_append_newline]
      · rfl
      · rw [List.count_append, hcol]
        decide

/-- C8 witness: one newline-free failure yields a two-line CSV whose first
line is the header. -/
theorem c8_witness :
    ([(⟨"a", "boom", 500⟩ : FailedRecord)].length = 0 → False) ∧
    Logger.saveFailedRecords "f.csv" "email" [⟨"a", "boom", 500⟩]
      = some ("f.csv", failedRecordsCsv "email" [⟨"a", "boom", 500⟩]) ∧
    lineCount (failedRecordsCsv "email" [⟨"a", "boom", 500⟩]) = 2 ∧
    firstLine (failedRecordsCsv "email" [⟨"a", "boom", 500⟩]) = "email" ++ ",error,status" := by
  have h := (c8_flushFailures "f.csv" "email" [⟨"a", "boom", 500⟩] (by decide)
    (by intro r hr; simp at hr; subst hr; exact ⟨by decide, by decide⟩)).2 (by decide)
  exact ⟨by decide, h.1, h.2.1, h.2.2⟩

/-- C9: an error thrown by the remote call that carries no HTTP status is
treated as status 500: it is classified retryable and retried while
`attempt < maxAttempts`, and once attempts are exhausted the Failure outcome
reports status 500 (with `maxAttempts` attempts made). -/
theorem c9_missing_status_is_500 (retry : RetryConfig) (h : 1 ≤ retry.maxAttempts)
    (apiKey region msg : String) (env : Env) :
    effectiveStatus none = 500 ∧
    (deleteWithRetry apiKey region retry (fun _ => CallResult.err msg none) 1 env).result
        = DeleteResult.failure msg 500 retry.maxAttempts ∧
    (deleteWithRetry apiKey region retry (fun _ => CallResult.err msg none) 1 env).attemptsMade
        = retry.maxAttempts := by
  have hnone : effectiveStatus none = 429 ∨ 500 ≤ effectiveStatus none := by
    right; simp [effectiveStatus]
  have hkey := deleteWithRetryGo_const_err apiKey region retry msg none hnone
    (retry.maxAttempts - 1) 1 env
  refine ⟨rfl, ?_, ?_⟩
  · rw [deleteWithRetry, hkey.1]
    have h6 : 1 + (retry.maxAttempts - 1) = retry.maxAttempts := by omega
    rw [show effectiveStatus none = 500 from rfl, h6]
  · rw [deleteWithRetry, hkey.2]; omega

/-- C9 witness: a status-less network error with `maxAttempts = 2`. -/
theorem c9_witness :
    1 ≤ (⟨2, 1000, 2⟩ : RetryConfig).maxAttempts ∧
    effectiveStatus none = 500 ∧
    (deleteWithRetry "K" "us" ⟨2, 1000, 2⟩ (fun _ => CallResult.err "connect ECONNREFUSED" none) 1
        ⟨none, none⟩).result = DeleteResult.failure "connect ECONNREFUSED" 500 2 ∧
    (deleteWithRetry "K" "us" ⟨2, 1000, 2⟩ (fun _ => CallResult.err "connect ECONNREFUSED" none) 1
        ⟨none, none⟩).attemptsMade = 2 := by
  have h := c9_missing_status_is_500 ⟨2, 1000, 2⟩ (by decide) "K" "us"
    "connect ECONNREFUSED" ⟨none, none⟩
  exact ⟨by decide, h.1, h.2.1, h.2.2⟩

/-- C10 counterexample: the claim asserts `BLUESHIFT_USER_API_KEY` is restored
to its pre-call value.  When the variable previously held the empty string,
the `finally` guard `if (originalKey)` is falsy and the variable is deleted
instead of restored. -/
theorem c10_counterexample :
    (deleteWithRetry "KEY" "us" ⟨3, 1000, 2⟩ (fun _ => CallResult.ok) 1
        ⟨some "", some "eu"⟩).env.blueshiftUserApiKey ≠ some "" := by decide

/-- C10 (amended): every `deleteWithRetry` call, on Success and Failure paths
alike, restores `BLUESHIFT_USER_API_KEY` to its pre-call value when that
value was a non-empty string, and removes it when it was absent — or, by JS
truthiness, when it was the empty string — while `BLUESHIFT_REGION` is left
overwritten with the configured region. -/
theorem c10_env_key_restore (apiKey region : String) (retry : RetryConfig)
    (call : Nat → CallResult) (env : Env) :
    ((deleteWithRetry apiKey region retry call 1 env).env.blueshiftUserApiKey
        = if jsTruthy env.blueshiftUserApiKey then env.blueshiftUserApiKey else none) ∧
    (deleteWithRetry apiKey region retry call 1 env).env.blueshiftRegion = some region := by
  rw [deleteWithRetry, deleteWithRetryGo_env, restoreKey_eq]
  exact ⟨rfl, rfl⟩
